import Mathlib

/-!
Shallow embedding of the OpenAPI-fragment builder of `trpc-openapi`
(the single algorithmic source file: `getParameterObjects`,
`getMutationInputObjects`, `getResponsesObject`, `extractPathSchema`,
`schemaToPathParameterObjects`, `getBaseZodType` and the small zod /
JavaScript runtime surface they observe).

Modelling notes, all traceable to the source or to the semantics of the
external collaborators it calls into:

* zod schema values are modelled as a tagged tree `Zod`; the zod library
  itself is an external collaborator, so only the operations the source
  uses are modelled (`_def.typeName` discrimination, `.shape`, `.omit`,
  `.isOptional()`, the unwrap accessors `unwrap` / `removeDefault` /
  `innerType`).
* `zod-to-json-schema` is external; the produced JSON-Schema document is
  modelled as an opaque wrapper `SchemaObject` around the schema node it
  was rendered from.
* JavaScript property semantics matter in two places of the source and
  are modelled explicitly:
  1. `Object.keys(pathParams)` (inside `extractPathSchema`) is applied to
     the ZodObject *instance*, not to its `.shape`; its result is the
     instance's own enumerable properties — the methods zod binds in its
     constructors plus the ZodObject class fields — and never the schema's
     field names (those live under `_def`). It is a fixed list,
     `zodInstanceOwnKeys`.
  2. a plain-object property read `obj[key]` falls through to
     `Object.prototype` when `key` is not an own property; the inherited
     members (all functions, plus the `__proto__` accessor) are non-null
     and truthy. Their names are `objectPrototypeKeys`; a value inherited
     this way is modelled by the `Zod.protoValue` node, which carries no
     `_def.typeName`.
* JavaScript objects keep string keys in insertion order; keys that are
  canonical array indices would be enumerated first.  The modelled
  builders keep plain insertion order; theorems whose conclusion depends
  on enumeration order carry an explicit no-index-key hypothesis
  (`isJsIndexKey`).
* errors: the source throws `TRPCError` with five distinct messages; they
  are modelled by the enumeration `BuildError` using the specification's
  taxonomy names (`NotASchema` = 'Input parser expects ZodType',
  `ObjectKindRequired` = 'Input parser expects ZodObject',
  `StringFieldRequired` = 'Input parser expects ZodObject with ZodString
  values', `MalformedSegment` = 'An invalid dynamic URL segment found.',
  `UnknownPathField` = 'A dynamic segment found with no matching input
  parameter').  Fallible functions return `Except BuildError`.
-/

namespace Trpc

/-- zod first-party type kinds observed by the source (`_def.typeName`
values compared by `zodInstanceof`). `ZodOther` stands for any further
first-party kind the source never inspects individually. -/
inductive ZodKind where
  | ZodObject
  | ZodString
  | ZodNumber
  | ZodBoolean
  | ZodLiteral
  | ZodArray
  | ZodOptional
  | ZodDefault
  | ZodNullable
  | ZodEffects
  | ZodOther
  deriving Repr, DecidableEq

/-- Schema nodes: the zod value tree as far as the source observes it.
`zobject` carries the `.shape` as an association list in insertion order;
`zdefault` carries an (unobserved) rendering of its default value;
`protoValue` is not a zod schema at all — it models a plain JavaScript
value (a function inherited from `Object.prototype`) that the source can
smuggle into a shape via the `shape[key]` lookup; it has no
`_def.typeName`. -/
inductive Zod where
  | zobject (shape : List (String × Zod))
  | zstring
  | znumber
  | zboolean
  | zliteral (b : Bool)
  | zarray (elem : Zod)
  | zoptional (inner : Zod)
  | zdefault (defaultValue : String) (inner : Zod)
  | znullable (inner : Zod)
  | zeffects (inner : Zod)
  | zother
  | protoValue (name : String)
  deriving Repr

/-- The `_def.typeName` of a value, when it has one (`protoValue` is a
bare JavaScript function and has none). -/
def typeNameOf : Zod → Option ZodKind
  | .zobject _ => some .ZodObject
  | .zstring => some .ZodString
  | .znumber => some .ZodNumber
  | .zboolean => some .ZodBoolean
  | .zliteral _ => some .ZodLiteral
  | .zarray _ => some .ZodArray
  | .zoptional _ => some .ZodOptional
  | .zdefault _ _ => some .ZodDefault
  | .znullable _ => some .ZodNullable
  | .zeffects _ => some .ZodEffects
  | .zother => some .ZodOther
  | .protoValue _ => none

/-- Source `zodInstanceofZodType`: `!!schema?._def?.typeName`. -/
def zodInstanceofZodType (schema : Zod) : Bool :=
  (typeNameOf schema).isSome

/-- Source `zodInstanceof`: `schema?._def?.typeName === zodTypeKind`. -/
def zodInstanceof (schema : Zod) (zodTypeKind : ZodKind) : Bool :=
  typeNameOf schema == some zodTypeKind

/-- Source `getBaseZodType`: recursively unwraps `ZodOptional`
(`schema.unwrap()`), `ZodDefault` (`schema.removeDefault()`) and
`ZodEffects` (`schema.innerType()`); every other node — in particular a
`ZodNullable`, whose case is commented out in the source — is returned
unchanged. -/
def getBaseZodType : Zod → Zod
  | .zoptional inner => getBaseZodType inner
  | .zdefault _ inner => getBaseZodType inner
  | .zeffects inner => getBaseZodType inner
  | schema => schema

/-- Wrapper kinds that `getBaseZodType` unwraps. -/
def isWrapperKind : Zod → Bool
  | .zoptional _ => true
  | .zdefault _ _ => true
  | .zeffects _ => true
  | _ => false

/-- zod's `ZodType.isOptional()`, i.e. `safeParse(undefined).success`,
modelled structurally on the shape: an optional or default wrapper
accepts `undefined`; nullable and effects wrappers defer to their inner
node (value-dependent refinements are outside the shape model); every
base kind rejects `undefined`.  `protoValue` has no such method — the
modelled pipelines reject it on the base-kind check before ever querying
optionality, so the value returned here is never observed. -/
def isOptional : Zod → Bool
  | .zoptional _ => true
  | .zdefault _ _ => true
  | .znullable inner => isOptional inner
  | .zeffects inner => isOptional inner
  | _ => false

/-- Own enumerable property names of a zod v3 `ZodObject` instance: the
methods `ZodType`'s constructor binds onto `this`, the `_def` slot, and
the `ZodObject` class fields.  This — and never the shape's field names,
which live under `_def` — is what `Object.keys` returns when applied to
the ZodObject value itself, as `extractPathSchema` does when building the
`omit` mask. -/
def zodInstanceOwnKeys : List String :=
  ["_def", "parse", "safeParse", "parseAsync", "safeParseAsync", "spa",
   "refine", "refinement", "superRefine", "optional", "nullable",
   "nullish", "array", "promise", "or", "and", "transform", "brand",
   "default", "catch", "describe", "pipe", "readonly", "isNullable",
   "isOptional", "_cached", "nonstrict", "augment"]

/-- Enumerable-or-not member names of `Object.prototype`: a property read
on a plain object falls through to these when the key is not an own
property, and each of their values (functions; for `__proto__` the
prototype object) is non-null and truthy. -/
def objectPrototypeKeys : List String :=
  ["constructor", "hasOwnProperty", "isPrototypeOf",
   "propertyIsEnumerable", "toLocaleString", "toString", "valueOf",
   "__defineGetter__", "__defineSetter__", "__lookupGetter__",
   "__lookupSetter__", "__proto__"]

/-- Own-property read on a modelled plain object (association list in
insertion order): the first entry with the given key. -/
def jsGetOwn (l : List (String × α)) (k : String) : Option α :=
  (l.find? (fun e => e.1 == k)).map (fun e => e.2)

/-- Property read `shape[key]` on a shape object literal: own fields
first, then the inherited `Object.prototype` members (returned as a
`protoValue` node); `none` models `undefined`. -/
def shapeGet (shape : List (String × Zod)) (key : String) : Option Zod :=
  match jsGetOwn shape key with
  | some v => some v
  | none =>
      if objectPrototypeKeys.contains key then some (.protoValue key)
      else none

/-- Truthiness of `mask[key]` where `mask` is the plain object
`Object.fromEntries(own.map(k => [k, true]))`: true for the own keys and
for everything inherited from `Object.prototype`. -/
def maskTruthy (own : List String) (key : String) : Bool :=
  own.contains key || objectPrototypeKeys.contains key

/-- One step of `Object.fromEntries`: a later entry with an existing key
overwrites the stored value in place (the key keeps its first-insertion
position); a fresh key is appended. -/
def jsUpsert (acc : List (String × α)) (kv : String × α) :
    List (String × α) :=
  if acc.any (fun e => e.1 == kv.1) then
    acc.map (fun e => if e.1 == kv.1 then (e.1, kv.2) else e)
  else acc ++ [kv]

/-- `Object.fromEntries`, for identifier-like string keys (see the file
comment on array-index keys): first-insertion key order, last value
wins. -/
def jsFromEntries (l : List (String × α)) : List (String × α) :=
  l.foldl jsUpsert []

/-- The object spread `{...xs, ...ys}`: keys of `xs` keep their positions
(values overwritten by `ys` where the key occurs there too), keys only in
`ys` are appended in their order. -/
def jsSpread (xs ys : List (String × α)) : List (String × α) :=
  xs.map (fun kv =>
    match jsGetOwn ys kv.1 with
    | some v => (kv.1, v)
    | none => kv)
  ++ ys.filter (fun kv => (jsGetOwn xs kv.1).isNone)

/-- Key list of a modelled object. -/
def keysOf (l : List (String × α)) : List String :=
  l.map (fun e => e.1)

/-- A string JavaScript treats as a canonical array index (enumerated
numerically first in own-property order): a decimal numeral without
leading zeros, below 2^32 - 1.  None of the modelled builders reorder
such keys, so order-sensitive theorems assume their absence. -/
def isJsIndexKey (s : String) : Bool :=
  !s.toList.isEmpty && s.toList.all Char.isDigit
    && (s == "0" || s.toList.headD ' ' != '0')
    && s.toList.length ≤ 10

/-- JavaScript word character, the `\w` class of the segment pattern:
ASCII letters, digits and underscore. -/
def wordChar (c : Char) : Bool :=
  c.isAlphanum || c == '_'

/-- Recursion core of the template scan, with an explicit character-count
fuel: every step consumes at least one character of the remaining input,
so a fuel equal to the input length never runs out; structural recursion
on the fuel keeps the function kernel-reducible. -/
def scanTemplateAux : Nat → List Char → List String
  | 0, _ => []
  | _ + 1, [] => []
  | fuel + 1, c :: rest =>
    if c == '{' then
      match rest.dropWhile wordChar with
      | '}' :: tail =>
        if (rest.takeWhile wordChar).isEmpty then scanTemplateAux fuel rest
        else String.mk (rest.takeWhile wordChar) :: scanTemplateAux fuel tail
      | _ => scanTemplateAux fuel rest
    else scanTemplateAux fuel rest

/-- The scan `path.matchAll(/\{(\w+)\}/g)` returning the captured group
of each match in order: at an opening brace, a maximal nonempty run of
word characters immediately followed by a closing brace is a match and
scanning resumes after the closing brace; otherwise scanning advances one
character. -/
def scanTemplate (l : List Char) : List String :=
  scanTemplateAux l.length l

/-- The error taxonomy of the specification, one label per distinct
`TRPCError` message the source throws. -/
inductive BuildError where
  | NotASchema
  | ObjectKindRequired
  | StringFieldRequired
  | MalformedSegment
  | UnknownPathField
  deriving Repr, DecidableEq

/-- JSON-Schema document produced by the external `zod-to-json-schema`
bridge, modelled opaquely as the schema node it renders. -/
structure SchemaObject where
  ofZod : Zod
  deriving Repr

/-- Source `zodSchemaToOpenApiSchemaObject`: delegated conversion,
modelled as the opaque embedding. -/
def zodSchemaToOpenApiSchemaObject (zodSchema : Zod) : SchemaObject :=
  ⟨zodSchema⟩

/-- The `in` member of an OpenAPI parameter object. -/
inductive ParamLocation where
  | path
  | query
  deriving Repr, DecidableEq

/-- OpenAPI v3 parameter object as the source emits it (`location` is the
`in` member, a reserved word here). -/
structure ParameterObject where
  name : String
  location : ParamLocation
  required : Bool
  schema : SchemaObject
  style : String
  explode : Bool
  deriving Repr

/-- Sequential left-to-right traversal with fail-fast error propagation:
the model of running a throwing callback inside `.map` before
`Object.fromEntries` consumes the result. -/
def traverseExcept (f : α → Except ε β) : List α → Except ε (List β)
  | [] => .ok []
  | a :: l =>
    match f a with
    | .error e => .error e
    | .ok b =>
      match traverseExcept f l with
      | .error e => .error e
      | .ok bs => .ok (b :: bs)

/-- The per-field body of the `restParams` loop in `getParameterObjects`:
reject a field whose unwrapped base is not a `ZodString`, otherwise emit
the query parameter object (`in: 'query'`, `style: 'form'`,
`explode: true`, `required: !value.isOptional()` on the wrapped node,
schema rendered from the wrapped node). -/
def buildQueryParamEntry (kv : String × Zod) :
    Except BuildError (String × ParameterObject) :=
  if !(zodInstanceof (getBaseZodType kv.2) .ZodString) then
    .error .StringFieldRequired
  else
    .ok (kv.1,
      { name := kv.1
        location := .query
        required := !(isOptional kv.2)
        schema := zodSchemaToOpenApiSchemaObject kv.2
        style := "form"
        explode := true })

/-- The per-field body of `schemaToPathParameterObjects`: same rule with
`in: 'path'` and `style: 'simple'`. -/
def buildPathParamEntry (kv : String × Zod) :
    Except BuildError (String × ParameterObject) :=
  if !(zodInstanceof (getBaseZodType kv.2) .ZodString) then
    .error .StringFieldRequired
  else
    .ok (kv.1,
      { name := kv.1
        location := .path
        required := !(isOptional kv.2)
        schema := zodSchemaToOpenApiSchemaObject kv.2
        style := "simple"
        explode := true })

/-- The entry `buildQueryParamEntry` emits when its field passes the
string check (proof-layer shorthand for stating success shapes). -/
def queryParamEntryOf (kv : String × Zod) : String × ParameterObject :=
  (kv.1,
    { name := kv.1
      location := .query
      required := !(isOptional kv.2)
      schema := zodSchemaToOpenApiSchemaObject kv.2
      style := "form"
      explode := true })

/-- The entry `buildPathParamEntry` emits when its field passes the
string check (proof-layer shorthand for stating success shapes). -/
def pathParamEntryOf (kv : String × Zod) : String × ParameterObject :=
  (kv.1,
    { name := kv.1
      location := .path
      required := !(isOptional kv.2)
      schema := zodSchemaToOpenApiSchemaObject kv.2
      style := "simple"
      explode := true })

/-- One captured segment key inside `extractPathSchema`: the (dead)
empty-key guard, then the `shape[key]` lookup whose `== null` failure is
`UnknownPathField`. -/
def segmentEntry (shape : List (String × Zod)) (key : String) :
    Except BuildError (String × Zod) :=
  if key == "" then .error .MalformedSegment
  else
    match shapeGet shape key with
    | none => .error .UnknownPathField
    | some inputParam => .ok (key, inputParam)

/-- Source `extractPathSchema`: checks the input is a zod value and an
object, extracts the `{name}` captures of the template, resolves each
against the shape, wraps them with `Object.fromEntries` + `z.object` into
`pathParams`, and builds `restParams` as `schema.omit(mask)` where the
mask's keys are `Object.keys(pathParams)` — the ZodObject instance's own
property names (see `zodInstanceOwnKeys`), not the shape keys — so a
shape field survives the omit exactly when its name makes `mask[key]`
falsy. -/
def extractPathSchema (schema : Zod) (path : String) :
    Except BuildError (List (String × Zod) × List (String × Zod)) :=
  if !(zodInstanceofZodType schema) then .error .NotASchema
  else
    match schema with
    | .zobject shape =>
      match traverseExcept (segmentEntry shape) (scanTemplate path.toList) with
      | .error e => .error e
      | .ok entries =>
        let pathParams := jsFromEntries entries
        let restParams :=
          shape.filter (fun kv => !(maskTruthy zodInstanceOwnKeys kv.1))
        .ok (pathParams, restParams)
    | _ => .error .ObjectKindRequired

/-- Source `schemaToPathParameterObjects`: the path-parameter loop over a
shape, producing a keyed object of parameter objects. -/
def schemaToPathParameterObjects (shape : List (String × Zod)) :
    Except BuildError (List (String × ParameterObject)) :=
  match traverseExcept buildPathParamEntry shape with
  | .error e => .error e
  | .ok entries => .ok (jsFromEntries entries)

/-- Source `getParameterObjects`: guards (zod value, object kind),
partition, the query loop over `restParams.shape`, the path loop, then
`Object.values({...restParamObjects, ...pathParamObjects})`. -/
def getParameterObjects (schema : Zod) (path : String) :
    Except BuildError (List ParameterObject) :=
  if !(zodInstanceofZodType schema) then .error .NotASchema
  else if !(zodInstanceof schema .ZodObject) then .error .ObjectKindRequired
  else
    match extractPathSchema schema path with
    | .error e => .error e
    | .ok (pathParams, restParams) =>
      match traverseExcept buildQueryParamEntry restParams with
      | .error e => .error e
      | .ok restEntries =>
        let restParamObjects := jsFromEntries restEntries
        match schemaToPathParameterObjects pathParams with
        | .error e => .error e
        | .ok pathParamObjects =>
          .ok ((jsSpread restParamObjects pathParamObjects).map
            (fun kv => kv.2))

/-- OpenAPI v3 request body object: `required` and
`content['application/json'].schema`. -/
structure RequestBodyObject where
  required : Bool
  contentSchema : SchemaObject
  deriving Repr

/-- Result record of `getMutationInputObjects`. -/
structure MutationInputObjects where
  requestBody : RequestBodyObject
  parameters : List ParameterObject
  deriving Repr

/-- Source `getMutationInputObjects`: zod-value guard, partition (which
enforces the object kind), path parameter objects, and a request body
whose schema is the rendered `restParams` object and whose `required` is
`!restParams.isOptional()`. -/
def getMutationInputObjects (schema : Zod) (path : String) :
    Except BuildError MutationInputObjects :=
  if !(zodInstanceofZodType schema) then .error .NotASchema
  else
    match extractPathSchema schema path with
    | .error e => .error e
    | .ok (pathParams, restParams) =>
      match schemaToPathParameterObjects pathParams with
      | .error e => .error e
      | .ok pathParamObjects =>
        .ok
          { requestBody :=
              { required := !(isOptional (.zobject restParams))
                contentSchema :=
                  zodSchemaToOpenApiSchemaObject (.zobject restParams) }
            parameters := pathParamObjects.map (fun kv => kv.2) }

/-- A response map entry: either an inline response (description plus
media-type schema) or a `$ref` reference. -/
inductive ResponseEntry where
  | inline (description : String) (schema : SchemaObject)
  | ref (target : String)
  deriving Repr

/-- The response set the source returns: the `200` entry and the
`default` entry. -/
structure ResponsesObject where
  r200 : ResponseEntry
  rdefault : ResponseEntry
  deriving Repr

/-- The shared error envelope schema of `errorResponseObject`. -/
def errorResponseZod : Zod :=
  .zobject
    [("ok", .zliteral false),
     ("error", .zobject
        [("message", .zstring),
         ("code", .zstring),
         ("issues", .zoptional (.zarray (.zobject [("message", .zstring)])))])]

/-- Source `errorResponseObject`: the constant shared error response
document. -/
def errorResponseObject : ResponseEntry :=
  .inline "Error response" (zodSchemaToOpenApiSchemaObject errorResponseZod)

/-- Source `getResponsesObject`: zod-value guard, then the constant
success envelope under `200` and a `$ref` under `default`. -/
def getResponsesObject (schema : Zod) : Except BuildError ResponsesObject :=
  if !(zodInstanceofZodType schema) then .error .NotASchema
  else
    .ok
      { r200 := .inline "Successful response"
          (zodSchemaToOpenApiSchemaObject
            (.zobject [("ok", .zliteral true), ("data", schema)]))
        rdefault := .ref "#/components/responses/error" }

/-- Observer: does a build result carry the `MalformedSegment` error? -/
def isMalformedSegmentError : Except BuildError α → Bool
  | .error .MalformedSegment => true
  | _ => false

end Trpc

namespace Trpc

/-! Helper lemmas about the modelled runtime primitives. -/

theorem scanTemplateAux_ne_empty (fuel : Nat) :
    ∀ (l : List Char), ∀ k ∈ scanTemplateAux fuel l, k ≠ "" := by
  induction fuel with
  | zero =>
    intro l k hk
    simp [scanTemplateAux] at hk
  | succ fuel ih =>
    intro l k hk
    match l with
    | [] => simp [scanTemplateAux] at hk
    | c :: rest =>
      rw [scanTemplateAux] at hk
      split at hk
      · split at hk
        · split at hk
          · exact ih rest k hk
          · rcases List.mem_cons.mp hk with h1 | h2
            · subst h1
              intro habs
              rename_i hemp
              have hdata : rest.takeWhile wordChar = [] := by
                have := congrArg String.data habs
                simpa using this
              rw [hdata] at hemp
              simp at hemp
            · exact ih _ k h2
        · exact ih rest k hk
      · exact ih rest k hk

theorem scanTemplate_ne_empty (l : List Char) :
    ∀ k ∈ scanTemplate l, k ≠ "" :=
  scanTemplateAux_ne_empty l.length l

theorem traverseExcept_error_exists {f : α → Except ε β} :
    ∀ {l : List α} {e : ε}, traverseExcept f l = .error e →
      ∃ a ∈ l, f a = .error e := by
  intro l
  induction l with
  | nil => intro e h; simp [traverseExcept] at h
  | cons a l ih =>
    intro e h
    rw [traverseExcept] at h
    cases hfa : f a with
    | error ea =>
      simp only [hfa] at h
      injection h with h
      exact ⟨a, List.mem_cons_self a l, by rw [hfa, h]⟩
    | ok b =>
      simp only [hfa] at h
      cases hr : traverseExcept f l with
      | error er =>
        simp only [hr] at h
        injection h with h
        subst h
        rcases ih hr with ⟨x, hx, hfx⟩
        exact ⟨x, List.mem_cons_of_mem a hx, hfx⟩
      | ok bs =>
        simp only [hr] at h
        exact absurd h (by simp)

theorem traverseExcept_ok_mem {f : α → Except ε β} :
    ∀ {l : List α} {out : List β}, traverseExcept f l = .ok out →
      ∀ b ∈ out, ∃ a ∈ l, f a = .ok b := by
  intro l
  induction l with
  | nil =>
    intro out h b hb
    simp [traverseExcept] at h
    subst h
    simp at hb
  | cons a l ih =>
    intro out h b hb
    rw [traverseExcept] at h
    cases hfa : f a with
    | error ea => simp only [hfa] at h; exact absurd h (by simp)
    | ok b0 =>
      simp only [hfa] at h
      cases hr : traverseExcept f l with
      | error er => simp only [hr] at h; exact absurd h (by simp)
      | ok bs =>
        simp only [hr] at h
        injection h with h
        subst h
        rcases List.mem_cons.mp hb with h1 | h2
        · exact ⟨a, List.mem_cons_self a l, by rw [hfa, h1]⟩
        · rcases ih hr b h2 with ⟨x, hx, hfx⟩
          exact ⟨x, List.mem_cons_of_mem a hx, hfx⟩

theorem traverseExcept_ok_map {f : α → Except ε β} {g : α → β}
    (hg : ∀ a b, f a = .ok b → b = g a) :
    ∀ {l : List α} {out : List β}, traverseExcept f l = .ok out →
      out = l.map g := by
  intro l
  induction l with
  | nil =>
    intro out h
    simp [traverseExcept] at h
    simp [← h]
  | cons a l ih =>
    intro out h
    rw [traverseExcept] at h
    cases hfa : f a with
    | error ea => simp only [hfa] at h; exact absurd h (by simp)
    | ok b0 =>
      simp only [hfa] at h
      cases hr : traverseExcept f l with
      | error er => simp only [hr] at h; exact absurd h (by simp)
      | ok bs =>
        simp only [hr] at h
        injection h with h
        subst h
        rw [List.map_cons, ← hg a b0 hfa, ih hr]

theorem traverseExcept_error_of_mem {f : α → Except ε β} {e0 : ε} :
    ∀ {l : List α} {a : α} {e : ε}, a ∈ l → f a = .error e →
      (∀ x ∈ l, ∀ e', f x = .error e' → e' = e0) →
      traverseExcept f l = .error e0 := by
  intro l
  induction l with
  | nil => intro a e ha; simp at ha
  | cons x l ih =>
    intro a e ha he hall
    rw [traverseExcept]
    rcases List.mem_cons.mp ha with h1 | h2
    · subst h1
      rw [he, hall a (List.mem_cons_self a l) e he]
    · cases hfx : f x with
      | error ex =>
        rw [hall x (List.mem_cons_self x l) ex hfx]
      | ok bx =>
        have hrec := ih h2 he (fun y hy => hall y (List.mem_cons_of_mem x hy))
        rw [hrec]

theorem traverseExcept_ok_of_all {f : α → Except ε β} :
    ∀ {l : List α}, (∀ a ∈ l, ∃ b, f a = .ok b) →
      ∃ out, traverseExcept f l = .ok out := by
  intro l
  induction l with
  | nil => intro _; exact ⟨[], rfl⟩
  | cons a l ih =>
    intro hall
    rcases hall a (List.mem_cons_self a l) with ⟨b, hb⟩
    rcases ih (fun x hx => hall x (List.mem_cons_of_mem a hx)) with ⟨out, hout⟩
    exact ⟨b :: out, by rw [traverseExcept, hb, hout]⟩

theorem mem_jsUpsert {acc : List (String × α)} {kv x : String × α}
    (h : x ∈ jsUpsert acc kv) : x ∈ acc ∨ x = kv := by
  unfold jsUpsert at h
  split at h
  · rcases List.mem_map.mp h with ⟨e, he, hex⟩
    by_cases hk : (e.1 == kv.1) = true
    · right
      rw [if_pos hk] at hex
      have he1 : e.1 = kv.1 := eq_of_beq hk
      rw [← hex, he1]
    · left
      rw [if_neg hk] at hex
      rw [← hex]; exact he
  · rcases List.mem_append.mp h with h1 | h2
    · exact Or.inl h1
    · simp at h2
      exact Or.inr h2

theorem mem_foldl_jsUpsert :
    ∀ (l acc : List (String × α)) (x : String × α),
      x ∈ l.foldl jsUpsert acc → x ∈ acc ∨ x ∈ l := by
  intro l
  induction l with
  | nil => intro acc x h; exact Or.inl h
  | cons a l ih =>
    intro acc x h
    rw [List.foldl_cons] at h
    rcases ih (jsUpsert acc a) x h with h1 | h2
    · rcases mem_jsUpsert h1 with ha | hb
      · exact Or.inl ha
      · exact Or.inr (by rw [hb]; exact List.mem_cons_self a l)
    · exact Or.inr (List.mem_cons_of_mem a h2)

theorem mem_jsFromEntries {l : List (String × α)} {x : String × α}
    (h : x ∈ jsFromEntries l) : x ∈ l := by
  rcases mem_foldl_jsUpsert l [] x h with h1 | h2
  · simp at h1
  · exact h2

theorem keysOf_jsUpsert_nodup {acc : List (String × α)} (kv : String × α)
    (h : (keysOf acc).Nodup) : (keysOf (jsUpsert acc kv)).Nodup := by
  unfold jsUpsert
  split
  · have hkeys : keysOf (acc.map fun e => if e.1 == kv.1 then (e.1, kv.2) else e)
        = keysOf acc := by
      unfold keysOf
      rw [List.map_map]
      apply List.map_congr_left
      intro e _
      by_cases hk : (e.1 == kv.1) = true
      · simp only [Function.comp_apply, if_pos hk]
      · simp only [Function.comp_apply, if_neg hk]
    rw [hkeys]
    exact h
  · rename_i hany
    have hnm : kv.1 ∉ keysOf acc := by
      intro hmem
      rcases List.mem_map.mp hmem with ⟨e, he, hek⟩
      have : acc.any (fun e => e.1 == kv.1) = true :=
        List.any_eq_true.mpr ⟨e, he, by rw [hek]; simp⟩
      simp [this] at hany
    unfold keysOf
    rw [List.map_append]
    apply List.Nodup.append h (by simp)
    intro a ha hb
    simp at hb
    rw [hb] at ha
    exact hnm ha

theorem keysOf_foldl_jsUpsert_nodup :
    ∀ (l acc : List (String × α)), (keysOf acc).Nodup →
      (keysOf (l.foldl jsUpsert acc)).Nodup := by
  intro l
  induction l with
  | nil => intro acc h; exact h
  | cons a l ih =>
    intro acc h
    rw [List.foldl_cons]
    exact ih _ (keysOf_jsUpsert_nodup a h)

theorem keysOf_jsFromEntries_nodup (l : List (String × α)) :
    (keysOf (jsFromEntries l)).Nodup :=
  keysOf_foldl_jsUpsert_nodup l [] (by simp [keysOf])

theorem foldl_jsUpsert_eq_append :
    ∀ (l acc : List (String × α)), (keysOf (acc ++ l)).Nodup →
      l.foldl jsUpsert acc = acc ++ l := by
  intro l
  induction l with
  | nil => intro acc _; simp
  | cons a l ih =>
    intro acc h
    rw [List.foldl_cons]
    have hsplit : (keysOf acc ++ keysOf (a :: l)).Nodup := by
      have h2 := h
      unfold keysOf at h2
      rw [List.map_append] at h2
      exact h2
    have hnm : a.1 ∉ keysOf acc := by
      intro hmem
      have hdisj := List.disjoint_of_nodup_append hsplit
      exact hdisj hmem (by simp [keysOf])
    have hup : jsUpsert acc a = acc ++ [a] := by
      unfold jsUpsert
      rw [if_neg]
      intro hany
      rcases List.any_eq_true.mp hany with ⟨e, he, hek⟩
      have he1 : e.1 = a.1 := eq_of_beq hek
      exact hnm (he1 ▸ List.mem_map.mpr ⟨e, he, rfl⟩)
    rw [hup, ih (acc ++ [a]) (by rwa [List.append_assoc, List.singleton_append])]
    rw [List.append_assoc, List.singleton_append]

theorem jsFromEntries_eq_self {l : List (String × α)}
    (h : (keysOf l).Nodup) : jsFromEntries l = l := by
  unfold jsFromEntries
  rw [foldl_jsUpsert_eq_append l [] (by simpa using h)]
  simp

theorem jsGetOwn_mem {l : List (String × α)} {k : String} {v : α}
    (h : jsGetOwn l k = some v) : (k, v) ∈ l := by
  unfold jsGetOwn at h
  cases hf : l.find? (fun e => e.1 == k) with
  | none => rw [hf] at h; simp at h
  | some e =>
    rw [hf] at h
    simp at h
    have hb0 := List.find?_some hf
    have hbeq : e.1 = k := eq_of_beq hb0
    have hmem := List.mem_of_find?_eq_some hf
    have hkv : (k, v) = e := by rw [← hbeq, ← h]
    rw [hkv]
    exact hmem

theorem jsGetOwn_eq_some_of_mem :
    ∀ {l : List (String × α)} {k : String} {v : α},
      (keysOf l).Nodup → (k, v) ∈ l → jsGetOwn l k = some v := by
  intro l
  induction l with
  | nil => intro k v _ hm; simp at hm
  | cons e l ih =>
    intro k v hnd hm
    unfold jsGetOwn
    rw [List.find?_cons]
    by_cases hk : (e.1 == k) = true
    · simp only [hk]
      rcases List.mem_cons.mp hm with h1 | h2
      · rw [← h1]; rfl
      · exfalso
        have he1 : e.1 = k := eq_of_beq hk
        have hkl : k ∈ keysOf l := List.mem_map.mpr ⟨(k, v), h2, rfl⟩
        unfold keysOf at hnd
        rw [List.map_cons] at hnd
        exact (List.nodup_cons.mp hnd).1 (he1 ▸ hkl)
    · have hk' : (e.1 == k) = false := Bool.eq_false_iff.mpr hk
      simp only [hk']
      rcases List.mem_cons.mp hm with h1 | h2
      · exfalso
        apply hk
        rw [← h1]
        simp
      · have hnd' : (keysOf l).Nodup := by
          unfold keysOf at hnd ⊢
          rw [List.map_cons] at hnd
          exact (List.nodup_cons.mp hnd).2
        exact ih hnd' h2

theorem jsGetOwn_isSome_iff {l : List (String × α)} {k : String} :
    (jsGetOwn l k).isSome ↔ k ∈ keysOf l := by
  unfold jsGetOwn keysOf
  rw [Option.isSome_map']
  rw [List.find?_isSome]
  constructor
  · rintro ⟨e, he, hek⟩
    exact List.mem_map.mpr ⟨e, he, eq_of_beq hek⟩
  · intro hm
    rcases List.mem_map.mp hm with ⟨e, he, hek⟩
    exact ⟨e, he, by rw [hek]; simp⟩

theorem jsGetOwn_isNone_eq (l : List (String × α)) (k : String) :
    (jsGetOwn l k).isNone = !((keysOf l).contains k) := by
  by_cases h : k ∈ keysOf l
  · have h1 : (jsGetOwn l k).isSome := jsGetOwn_isSome_iff.mpr h
    have h2 : (keysOf l).contains k = true := by
      simp [List.contains, h]
    rw [h2]
    cases ho : jsGetOwn l k with
    | none => rw [ho] at h1; simp at h1
    | some v => simp
  · have h1 : ¬(jsGetOwn l k).isSome := fun hs => h (jsGetOwn_isSome_iff.mp hs)
    have h2 : (keysOf l).contains k = false := by
      simp [List.contains, h]
    rw [h2]
    cases ho : jsGetOwn l k with
    | none => simp
    | some v => rw [ho] at h1; simp at h1

theorem mem_jsSpread_cases {xs ys : List (String × α)} {x : String × α}
    (h : x ∈ jsSpread xs ys) :
    (x ∈ ys ∧ (jsGetOwn ys x.1).isSome = true) ∨
    (x ∈ xs ∧ jsGetOwn ys x.1 = none) := by
  unfold jsSpread at h
  rcases List.mem_append.mp h with h1 | h2
  · rcases List.mem_map.mp h1 with ⟨kv, hkv, hx⟩
    cases ho : jsGetOwn ys kv.1 with
    | some v =>
      simp only [ho] at hx
      left
      constructor
      · rw [← hx]; exact jsGetOwn_mem ho
      · rw [← hx, ho]; rfl
    | none =>
      simp only [ho] at hx
      right
      rw [← hx]
      exact ⟨hkv, ho⟩
  · have hmem := List.mem_of_mem_filter h2
    have hprop := List.of_mem_filter h2
    left
    refine ⟨hmem, ?_⟩
    have hk : x.1 ∈ keysOf ys := List.mem_map.mpr ⟨x, hmem, rfl⟩
    exact jsGetOwn_isSome_iff.mpr hk

theorem keysOf_jsSpread (xs ys : List (String × α)) :
    keysOf (jsSpread xs ys)
      = keysOf xs ++ keysOf (ys.filter fun kv => (jsGetOwn xs kv.1).isNone) := by
  unfold jsSpread keysOf
  rw [List.map_append]
  congr 1
  rw [List.map_map]
  apply List.map_congr_left
  intro kv _
  cases ho : jsGetOwn ys kv.1 <;> simp [ho]

end Trpc

namespace Trpc

/-! Unfolding and inversion helpers for the builder pipelines. -/

theorem extractPathSchema_zobject (shape : List (String × Zod)) (path : String) :
    extractPathSchema (.zobject shape) path
      = match traverseExcept (segmentEntry shape) (scanTemplate path.toList) with
        | .error e => .error e
        | .ok entries =>
          .ok (jsFromEntries entries,
            shape.filter (fun kv => !(maskTruthy zodInstanceOwnKeys kv.1))) := rfl

theorem getParameterObjects_zobject (shape : List (String × Zod)) (path : String) :
    getParameterObjects (.zobject shape) path
      = match extractPathSchema (.zobject shape) path with
        | .error e => .error e
        | .ok (pathParams, restParams) =>
          match traverseExcept buildQueryParamEntry restParams with
          | .error e => .error e
          | .ok restEntries =>
            match schemaToPathParameterObjects pathParams with
            | .error e => .error e
            | .ok pathParamObjects =>
              .ok ((jsSpread (jsFromEntries restEntries) pathParamObjects).map
                (fun kv => kv.2)) := rfl

theorem getMutationInputObjects_zobject (shape : List (String × Zod)) (path : String) :
    getMutationInputObjects (.zobject shape) path
      = match extractPathSchema (.zobject shape) path with
        | .error e => .error e
        | .ok (pathParams, restParams) =>
          match schemaToPathParameterObjects pathParams with
          | .error e => .error e
          | .ok pathParamObjects =>
            .ok { requestBody :=
                    { required := !(isOptional (.zobject restParams))
                      contentSchema :=
                        zodSchemaToOpenApiSchemaObject (.zobject restParams) }
                  parameters := pathParamObjects.map (fun kv => kv.2) } := rfl

theorem segmentEntry_error_eq {shape : List (String × Zod)} {key : String}
    {e : BuildError} (hne : key ≠ "") (h : segmentEntry shape key = .error e) :
    e = BuildError.UnknownPathField := by
  unfold segmentEntry at h
  rw [if_neg (by simpa using hne)] at h
  cases hs : shapeGet shape key with
  | none =>
    simp only [hs] at h
    injection h with h
    exact h.symm
  | some v =>
    simp only [hs] at h
    exact absurd h (by simp)

theorem extractPathSchema_ne_malformed (schema : Zod) (path : String) :
    isMalformedSegmentError (extractPathSchema schema path) = false := by
  cases schema with
  | zobject shape =>
    rw [extractPathSchema_zobject]
    cases ht : traverseExcept (segmentEntry shape) (scanTemplate path.toList) with
    | error e =>
      rcases traverseExcept_error_exists ht with ⟨key, hkey, hseg⟩
      have hne := scanTemplate_ne_empty path.toList key hkey
      have heq : e = .UnknownPathField := segmentEntry_error_eq hne hseg
      subst heq
      simp [isMalformedSegmentError]
    | ok entries => simp [isMalformedSegmentError]
  | zstring => rfl
  | znumber => rfl
  | zboolean => rfl
  | zliteral b => rfl
  | zarray elem => rfl
  | zoptional inner => rfl
  | zdefault d inner => rfl
  | znullable inner => rfl
  | zeffects inner => rfl
  | zother => rfl
  | protoValue name => rfl

end Trpc

namespace Trpc

/-! Claim theorems. -/

/-- C1: the claim states that partitioning an object schema over a template
yields disjoint field-name sets covering the schema.  The code violates
disjointness: `extractPathSchema` passes `Object.keys` of the ZodObject
*instance* (zod's bound method names, `zodInstanceOwnKeys`) as the omit
mask instead of the shape keys, so `restParams` retains every
template-bound field.  Evaluating the partition at the schema
`{id: string, title: string}` with template `/users/{id}` shows `id` in
both subsets. -/
theorem c1_partition_not_disjoint_eval :
    extractPathSchema (Zod.zobject [("id", Zod.zstring), ("title", Zod.zstring)])
        "/users/{id}"
      = Except.ok ([("id", Zod.zstring)],
          [("id", Zod.zstring), ("title", Zod.zstring)]) ∧
    "id" ∈ keysOf [("id", Zod.zstring)] ∧
    "id" ∈ keysOf [("id", Zod.zstring), ("title", Zod.zstring)] :=
  ⟨rfl, by decide, by decide⟩

/-- C3: a remainder field whose unwrapped base kind is not `ZodString`
makes `getParameterObjects` fail with the `StringFieldRequired` error,
while `getMutationInputObjects` (whose request body accepts any remainder
fields) succeeds on the same partition as long as every path-bound field
is string-based. -/
theorem c3_nonstring_query_fails_but_body_accepts
    (fields : List (String × Zod)) (path : String)
    (pathParams restParams : List (String × Zod)) (k : String) (v : Zod)
    (hx : extractPathSchema (.zobject fields) path = .ok (pathParams, restParams))
    (hm : (k, v) ∈ restParams)
    (hns : zodInstanceof (getBaseZodType v) .ZodString = false)
    (hp : ∀ kv ∈ pathParams, zodInstanceof (getBaseZodType kv.2) .ZodString = true) :
    getParameterObjects (.zobject fields) path = .error .StringFieldRequired ∧
    ∃ out, getMutationInputObjects (.zobject fields) path = .ok out := by
  constructor
  · rw [getParameterObjects_zobject]
    simp only [hx]
    have herr : buildQueryParamEntry (k, v) = .error .StringFieldRequired := by
      simp [buildQueryParamEntry, hns]
    have hall : ∀ x ∈ restParams, ∀ e',
        buildQueryParamEntry x = .error e' → e' = .StringFieldRequired := by
      intro x hxm e' hxe
      unfold buildQueryParamEntry at hxe
      split at hxe
      · injection hxe with hxe; exact hxe.symm
      · exact absurd hxe (by simp)
    rw [traverseExcept_error_of_mem hm herr hall]
  · rcases traverseExcept_ok_of_all (f := buildPathParamEntry) (l := pathParams)
        (fun kv hkv =>
          ⟨(kv.1,
            { name := kv.1, location := .path, required := !(isOptional kv.2),
              schema := zodSchemaToOpenApiSchemaObject kv.2, style := "simple",
              explode := true }),
           by simp [buildPathParamEntry, hp kv hkv]⟩) with
      ⟨entries, hent⟩
    have hres : getMutationInputObjects (.zobject fields) path
        = .ok { requestBody :=
                  { required := !(isOptional (.zobject restParams))
                    contentSchema :=
                      zodSchemaToOpenApiSchemaObject (.zobject restParams) }
                parameters := (jsFromEntries entries).map (fun kv => kv.2) } := by
      rw [getMutationInputObjects_zobject]
      simp only [hx]
      unfold schemaToPathParameterObjects
      simp only [hent]
    exact ⟨_, hres⟩

/-- C3 witness: schema `{id: string, count: number}` with template
`/items/{id}` — the parameter-only builder fails with
`StringFieldRequired` on the numeric remainder field, the mutation
builder succeeds. -/
theorem c3_nonstring_witness :
    getParameterObjects
        (Zod.zobject [("id", Zod.zstring), ("count", Zod.znumber)]) "/items/{id}"
      = .error .StringFieldRequired ∧
    ∃ out, getMutationInputObjects
        (Zod.zobject [("id", Zod.zstring), ("count", Zod.znumber)]) "/items/{id}"
      = .ok out :=
  c3_nonstring_query_fails_but_body_accepts
    [("id", Zod.zstring), ("count", Zod.znumber)] "/items/{id}"
    [("id", Zod.zstring)] [("id", Zod.zstring), ("count", Zod.znumber)]
    "count" Zod.znumber rfl (by simp) rfl
    (by intro kv hkv; simp at hkv; subst hkv; rfl)

/-- C5 counterexample: the claim says every template segment naming a
non-field fails with `UnknownPathField`; but the segment `{toString}`
against the schema `{id: string}` does not — the `shape[key]` lookup
finds the inherited `Object.prototype.toString` function, the partition
succeeds with that function smuggled into the path subset, and the build
fails later with `StringFieldRequired` instead. -/
theorem c5_proto_segment_counterexample :
    extractPathSchema (Zod.zobject [("id", Zod.zstring)]) "/{toString}"
      = .ok ([("toString", Zod.protoValue "toString")], [("id", Zod.zstring)]) ∧
    getParameterObjects (Zod.zobject [("id", Zod.zstring)]) "/{toString}"
      = .error .StringFieldRequired :=
  ⟨rfl, rfl⟩

/-- C5 (amended): for every template segment name that is neither a field
of the schema nor an `Object.prototype` member name, the partition fails
with `UnknownPathField`. -/
theorem c5_unknown_path_field (fields : List (String × Zod)) (path k : String)
    (hk : k ∈ scanTemplate path.toList)
    (hnf : jsGetOwn fields k = none)
    (hnp : objectPrototypeKeys.contains k = false) :
    extractPathSchema (.zobject fields) path = .error .UnknownPathField := by
  rw [extractPathSchema_zobject]
  have herr : segmentEntry fields k = .error .UnknownPathField := by
    unfold segmentEntry
    rw [if_neg (by simpa using scanTemplate_ne_empty path.toList k hk)]
    unfold shapeGet
    simp only [hnf]
    rw [if_neg (by simpa using hnp)]
  have hall : ∀ x ∈ scanTemplate path.toList, ∀ e',
      segmentEntry fields x = .error e' → e' = .UnknownPathField :=
    fun x hx e' hxe => segmentEntry_error_eq (scanTemplate_ne_empty _ _ hx) hxe
  rw [traverseExcept_error_of_mem hk herr hall]

/-- C5 witness: template `/{missing}` against schema `{id: string}` fails
with `UnknownPathField`. -/
theorem c5_unknown_path_field_witness :
    extractPathSchema (Zod.zobject [("id", Zod.zstring)]) "/{missing}"
      = .error .UnknownPathField :=
  c5_unknown_path_field [("id", Zod.zstring)] "/{missing}" "missing"
    (by decide) rfl (by decide)

/-- C6: every schema that is a zod value but not of `ZodObject` kind is
rejected by the parameter-only entry point with the `ObjectKindRequired`
error, before any parameter object is produced. -/
theorem c6_nonobject_rejected (schema : Zod) (path : String)
    (h1 : zodInstanceofZodType schema = true)
    (h2 : zodInstanceof schema ZodKind.ZodObject = false) :
    getParameterObjects schema path = .error .ObjectKindRequired := by
  unfold getParameterObjects
  rw [h1, h2]
  simp

/-- C6 witness: a top-level `ZodString` is rejected with
`ObjectKindRequired`. -/
theorem c6_nonobject_rejected_witness :
    getParameterObjects Zod.zstring "/x" = .error .ObjectKindRequired :=
  c6_nonobject_rejected Zod.zstring "/x" rfl rfl

/-- C7: for every zod output schema the response set has a `200` entry
whose inline schema is the success envelope `{ok: true, data: schema}`
and a `default` entry that is a `$ref` to the shared error response
document, never an inline schema. -/
theorem c7_success_envelope_and_default_ref (schema : Zod)
    (h : zodInstanceofZodType schema = true) :
    getResponsesObject schema
      = .ok { r200 := .inline "Successful response"
                (zodSchemaToOpenApiSchemaObject
                  (.zobject [("ok", .zliteral true), ("data", schema)]))
              rdefault := .ref "#/components/responses/error" } := by
  unfold getResponsesObject
  rw [h]
  simp

/-- C7 witness: the response set for a `ZodString` output schema. -/
theorem c7_success_envelope_witness :
    getResponsesObject Zod.zstring
      = .ok { r200 := .inline "Successful response"
                (zodSchemaToOpenApiSchemaObject
                  (.zobject [("ok", .zliteral true), ("data", Zod.zstring)]))
              rdefault := .ref "#/components/responses/error" } :=
  c7_success_envelope_and_default_ref Zod.zstring rfl

/-- C8: `getBaseZodType` follows the inner node of optional, default and
effects wrappers, returns every non-wrapper node unchanged, and in
particular never unwraps a nullable wrapper. -/
theorem c8_unwrap_wrappers_not_nullable :
    (∀ x, getBaseZodType (Zod.zoptional x) = getBaseZodType x) ∧
    (∀ d x, getBaseZodType (Zod.zdefault d x) = getBaseZodType x) ∧
    (∀ x, getBaseZodType (Zod.zeffects x) = getBaseZodType x) ∧
    (∀ x, isWrapperKind x = false → getBaseZodType x = x) ∧
    (∀ x, getBaseZodType (Zod.znullable x) = Zod.znullable x) := by
  refine ⟨fun x => rfl, fun d x => rfl, fun x => rfl, ?_, fun x => rfl⟩
  intro x hx
  cases x <;> first | rfl | simp [isWrapperKind] at hx

/-- C8 witness: a nullable-wrapped string is not a wrapper kind for the
unwrapper and is returned as its own base. -/
theorem c8_unwrap_witness :
    isWrapperKind (Zod.znullable Zod.zstring) = false ∧
    getBaseZodType (Zod.znullable Zod.zstring) = Zod.znullable Zod.zstring :=
  ⟨rfl, c8_unwrap_wrappers_not_nullable.2.2.2.1 (Zod.znullable Zod.zstring) rfl⟩

/-- C9: the segment pattern only captures nonempty names, so the
`MalformedSegment` guard in `extractPathSchema` never fires: no template
produces an empty capture and no build returns the `MalformedSegment`
error, even though the guard is present in `segmentEntry`. -/
theorem c9_malformed_segment_guard_unreachable (schema : Zod) (path : String) :
    ((scanTemplate path.toList).contains "") = false ∧
    isMalformedSegmentError (extractPathSchema schema path) = false := by
  constructor
  · rw [← Bool.not_eq_true]
    intro hc
    have hmem : "" ∈ scanTemplate path.toList := by
      simpa [List.contains] using hc
    exact scanTemplate_ne_empty path.toList "" hmem rfl
  · exact extractPathSchema_ne_malformed schema path

/-- C10: every successful `getMutationInputObjects` result has a request
body with `required = true`: only a plain object-kind schema reaches the
partition, and the remainder it builds is again a plain object, whose
`isOptional()` is false. -/
theorem c10_request_body_always_required (schema : Zod) (path : String)
    (out : MutationInputObjects)
    (h : getMutationInputObjects schema path = .ok out) :
    out.requestBody.required = true := by
  unfold getMutationInputObjects at h
  split at h
  · exact absurd h (by simp)
  · split at h
    · exact absurd h (by simp)
    · split at h
      · exact absurd h (by simp)
      · injection h with h
        subst h
        simp [isOptional]

/-- C10 witness: the mutation build for schema `{id: string}` and
template `/{id}` succeeds and its request body is required. -/
theorem c10_request_body_witness :
    ({ requestBody :=
         { required := true
           contentSchema := ⟨Zod.zobject [("id", Zod.zstring)]⟩ }
       parameters := [{ name := "id", location := .path, required := true,
                        schema := ⟨Zod.zstring⟩, style := "simple",
                        explode := true }] } : MutationInputObjects).requestBody.required
      = true :=
  c10_request_body_always_required (Zod.zobject [("id", Zod.zstring)]) "/{id}" _ rfl

end Trpc

namespace Trpc

/-! Success-shape helpers for the parameter pipeline. -/

theorem buildQueryParamEntry_ok_eq (kv : String × Zod)
    (b : String × ParameterObject) (h : buildQueryParamEntry kv = .ok b) :
    b = queryParamEntryOf kv := by
  unfold buildQueryParamEntry at h
  split at h
  · exact absurd h (by simp)
  · injection h with h
    rw [← h]
    rfl

theorem buildPathParamEntry_ok_eq (kv : String × Zod)
    (b : String × ParameterObject) (h : buildPathParamEntry kv = .ok b) :
    b = pathParamEntryOf kv := by
  unfold buildPathParamEntry at h
  split at h
  · exact absurd h (by simp)
  · injection h with h
    rw [← h]
    rfl

theorem keysOf_map_queryParamEntryOf (l : List (String × Zod)) :
    keysOf (l.map queryParamEntryOf) = keysOf l := by
  unfold keysOf
  rw [List.map_map]
  rfl

theorem keysOf_map_pathParamEntryOf (l : List (String × Zod)) :
    keysOf (l.map pathParamEntryOf) = keysOf l := by
  unfold keysOf
  rw [List.map_map]
  rfl

theorem keysOf_filter_key (q : String → Bool) :
    ∀ (l : List (String × α)),
      keysOf (l.filter (fun kv => q kv.1)) = (keysOf l).filter q := by
  intro l
  induction l with
  | nil => rfl
  | cons a l ih =>
    cases hq : q a.1 <;>
      simp [keysOf, List.filter_cons, hq, ih] <;>
      simpa [keysOf] using ih

theorem segmentEntry_ok_inv {shape : List (String × Zod)} {key k : String}
    {v : Zod} (h : segmentEntry shape key = .ok (k, v)) :
    k = key ∧ shapeGet shape key = some v := by
  unfold segmentEntry at h
  split at h
  · exact absurd h (by simp)
  · cases hs : shapeGet shape key with
    | none => simp only [hs] at h; exact absurd h (by simp)
    | some w =>
      simp only [hs] at h
      injection h with h
      injection h with h1 h2
      exact ⟨h1.symm, by rw [h2]⟩

theorem extractPathSchema_ok_inv {fields : List (String × Zod)} {path : String}
    {pf rf : List (String × Zod)}
    (hx : extractPathSchema (.zobject fields) path = .ok (pf, rf)) :
    rf = fields.filter (fun kv => !(maskTruthy zodInstanceOwnKeys kv.1)) ∧
    ∃ entries,
      traverseExcept (segmentEntry fields) (scanTemplate path.toList) = .ok entries ∧
      pf = jsFromEntries entries := by
  rw [extractPathSchema_zobject] at hx
  cases ht : traverseExcept (segmentEntry fields) (scanTemplate path.toList) with
  | error e => simp only [ht] at hx; exact absurd hx (by simp)
  | ok entries =>
    simp only [ht] at hx
    injection hx with hx
    injection hx with h1 h2
    exact ⟨h2.symm, entries, rfl, h1.symm⟩

theorem getParameterObjects_ok_extract {fields : List (String × Zod)}
    {path : String} {ps : List ParameterObject}
    (hok : getParameterObjects (.zobject fields) path = .ok ps) :
    ∃ pf rf, extractPathSchema (.zobject fields) path = .ok (pf, rf) := by
  rw [getParameterObjects_zobject] at hok
  cases hx : extractPathSchema (.zobject fields) path with
  | error e => simp only [hx] at hok; exact absurd hok (by simp)
  | ok pr => exact ⟨pr.1, pr.2, rfl⟩

theorem getParameterObjects_ok_shape {fields : List (String × Zod)}
    {path : String} {ps : List ParameterObject} {pf rf : List (String × Zod)}
    (hx : extractPathSchema (.zobject fields) path = .ok (pf, rf))
    (hok : getParameterObjects (.zobject fields) path = .ok ps) :
    ps = (jsSpread (jsFromEntries (rf.map queryParamEntryOf))
            (jsFromEntries (pf.map pathParamEntryOf))).map (fun kv => kv.2) := by
  rw [getParameterObjects_zobject] at hok
  simp only [hx] at hok
  cases hq : traverseExcept buildQueryParamEntry rf with
  | error e => simp only [hq] at hok; exact absurd hok (by simp)
  | ok restEntries =>
    simp only [hq] at hok
    unfold schemaToPathParameterObjects at hok
    cases hpth : traverseExcept buildPathParamEntry pf with
    | error e => simp only [hpth] at hok; exact absurd hok (by simp)
    | ok pes =>
      simp only [hpth] at hok
      injection hok with hok
      have h1 : restEntries = rf.map queryParamEntryOf :=
        traverseExcept_ok_map buildQueryParamEntry_ok_eq hq
      have h2 : pes = pf.map pathParamEntryOf :=
        traverseExcept_ok_map buildPathParamEntry_ok_eq hpth
      rw [← hok, h1, h2]

theorem keysOf_rf_nodup {fields rf : List (String × Zod)}
    (hnd : (keysOf fields).Nodup)
    (hrf : rf = fields.filter (fun kv => !(maskTruthy zodInstanceOwnKeys kv.1))) :
    (keysOf rf).Nodup := by
  have hsub : rf.Sublist fields := by
    rw [hrf]
    exact List.filter_sublist fields
  have hmap : (keysOf rf).Sublist (keysOf fields) := by
    unfold keysOf
    exact hsub.map (fun e => e.1)
  exact hnd.sublist hmap

end Trpc

namespace Trpc

/-- C2 counterexample: for schema `{title: string, id: string}` and
template `/posts/{id}` the build succeeds and returns the query-location
parameter `title` before the path-location parameter `id`, refuting the
claimed all-path-before-all-query ordering. -/
theorem c2_query_precedes_path_counterexample :
    (getParameterObjects
        (Zod.zobject [("title", Zod.zstring), ("id", Zod.zstring)])
        "/posts/{id}").map (List.map ParameterObject.location)
      = .ok [ParamLocation.query, ParamLocation.path] := rfl

/-- C2 (amended): on success the parameter list follows the remainder
subset's field order — each remainder field contributes one entry at its
position whose location is `path` exactly when the field's name is in the
path subset, and path-subset names absent from the remainder are appended
at the end.  Path parameters are therefore interleaved by schema field
position, not grouped before query parameters.  (The no-index-key
hypothesis records the JavaScript own-property-ordering caveat under
which the modelled insertion order is the real enumeration order.) -/
theorem c2_parameter_order_follows_fields
    (fields : List (String × Zod)) (path : String) (ps : List ParameterObject)
    (pf rf : List (String × Zod))
    (hnd : (keysOf fields).Nodup)
    (_hidx : ∀ kf ∈ keysOf fields, isJsIndexKey kf = false)
    (hx : extractPathSchema (.zobject fields) path = .ok (pf, rf))
    (hok : getParameterObjects (.zobject fields) path = .ok ps) :
    ps.map ParameterObject.name
      = keysOf rf ++ (keysOf pf).filter (fun kf => !((keysOf rf).contains kf)) ∧
    ∀ p ∈ ps, p.location
      = (if (keysOf pf).contains p.name then ParamLocation.path
         else ParamLocation.query) := by
  obtain ⟨hrf, entries, ht, hpf⟩ := extractPathSchema_ok_inv hx
  have hsh := getParameterObjects_ok_shape hx hok
  have hndrf : (keysOf rf).Nodup := keysOf_rf_nodup hnd hrf
  have hndpf : (keysOf pf).Nodup := by
    rw [hpf]; exact keysOf_jsFromEntries_nodup entries
  have hXe : jsFromEntries (rf.map queryParamEntryOf) = rf.map queryParamEntryOf :=
    jsFromEntries_eq_self (by rw [keysOf_map_queryParamEntryOf]; exact hndrf)
  have hYe : jsFromEntries (pf.map pathParamEntryOf) = pf.map pathParamEntryOf :=
    jsFromEntries_eq_self (by rw [keysOf_map_pathParamEntryOf]; exact hndpf)
  rw [hXe, hYe] at hsh
  constructor
  · rw [hsh, List.map_map]
    have hpoint : ∀ kv ∈ jsSpread (rf.map queryParamEntryOf)
        (pf.map pathParamEntryOf),
        (ParameterObject.name ∘ fun kv => kv.2) kv = kv.1 := by
      intro kv hkv
      rcases mem_jsSpread_cases hkv with ⟨hin, _⟩ | ⟨hin, _⟩
      · rcases List.mem_map.mp hin with ⟨fv, _, hfkv⟩
        rw [← hfkv]; rfl
      · rcases List.mem_map.mp hin with ⟨fv, _, hfkv⟩
        rw [← hfkv]; rfl
    rw [List.map_congr_left hpoint]
    show keysOf (jsSpread (rf.map queryParamEntryOf) (pf.map pathParamEntryOf)) = _
    rw [keysOf_jsSpread]
    congr 1
    · exact keysOf_map_queryParamEntryOf rf
    · rw [keysOf_filter_key (fun kf => (jsGetOwn (rf.map queryParamEntryOf) kf).isNone)
        (pf.map pathParamEntryOf)]
      rw [keysOf_map_pathParamEntryOf]
      apply List.filter_congr
      intro kf _
      rw [jsGetOwn_isNone_eq, keysOf_map_queryParamEntryOf]
  · intro p hp
    rw [hsh] at hp
    rcases List.mem_map.mp hp with ⟨kv, hkv, hkvp⟩
    rcases mem_jsSpread_cases hkv with ⟨hin, _⟩ | ⟨hin, hnone⟩
    · rcases List.mem_map.mp hin with ⟨fv, hfv, hfkv⟩
      have hname : p.name = fv.1 := by rw [← hkvp, ← hfkv]; rfl
      have hloc : p.location = ParamLocation.path := by rw [← hkvp, ← hfkv]; rfl
      have hcontains : (keysOf pf).contains p.name = true := by
        rw [hname]
        exact List.elem_iff.mpr (List.mem_map.mpr ⟨fv, hfv, rfl⟩)
      rw [hloc, hcontains]
      simp
    · rcases List.mem_map.mp hin with ⟨fv, hfv, hfkv⟩
      have hname : p.name = fv.1 := by rw [← hkvp, ← hfkv]; rfl
      have hloc : p.location = ParamLocation.query := by rw [← hkvp, ← hfkv]; rfl
      have hn0 : jsGetOwn (pf.map pathParamEntryOf) fv.1 = none := by
        rw [← hfkv] at hnone
        exact hnone
      have hn2 : (jsGetOwn (pf.map pathParamEntryOf) fv.1).isNone = true := by
        rw [hn0]; rfl
      rw [jsGetOwn_isNone_eq, keysOf_map_pathParamEntryOf] at hn2
      have hnc : (keysOf pf).contains p.name = false := by
        rw [hname]
        simpa using hn2
      rw [hloc, hnc]
      simp

/-- C2 witness: schema `{title: string, id: string}` with template
`/posts/{id}` — the name list and the per-entry location rule of the
amended ordering statement, at the concrete output. -/
theorem c2_parameter_order_witness :
    ([{ name := "title", location := .query, required := true,
        schema := ⟨Zod.zstring⟩, style := "form", explode := true },
      { name := "id", location := .path, required := true,
        schema := ⟨Zod.zstring⟩, style := "simple", explode := true }]
       : List ParameterObject).map ParameterObject.name
      = keysOf [("title", Zod.zstring), ("id", Zod.zstring)]
        ++ (keysOf [("id", Zod.zstring)]).filter
            (fun kf =>
              !((keysOf [("title", Zod.zstring), ("id", Zod.zstring)]).contains kf)) ∧
    ∀ p ∈ ([{ name := "title", location := .query, required := true,
              schema := ⟨Zod.zstring⟩, style := "form", explode := true },
            { name := "id", location := .path, required := true,
              schema := ⟨Zod.zstring⟩, style := "simple", explode := true }]
             : List ParameterObject),
      p.location
        = (if (keysOf [("id", Zod.zstring)]).contains p.name
           then ParamLocation.path else ParamLocation.query) :=
  c2_parameter_order_follows_fields
    [("title", Zod.zstring), ("id", Zod.zstring)] "/posts/{id}"
    [{ name := "title", location := .query, required := true,
       schema := ⟨Zod.zstring⟩, style := "form", explode := true },
     { name := "id", location := .path, required := true,
       schema := ⟨Zod.zstring⟩, style := "simple", explode := true }]
    [("id", Zod.zstring)] [("title", Zod.zstring), ("id", Zod.zstring)]
    (by decide) (by decide) rfl rfl

/-- C4: every emitted parameter object's `required` flag equals the
negation of `isOptional()` queried on the original, still-wrapped field
node fetched from the schema shape: an optional-wrapped string field
yields `required = false`, and a default-wrapped optional string field
also yields `required = false`. -/
theorem c4_required_from_wrapped_node
    (fields : List (String × Zod)) (path : String) (ps : List ParameterObject)
    (hnd : (keysOf fields).Nodup)
    (hok : getParameterObjects (.zobject fields) path = .ok ps) :
    ∀ p ∈ ps, ∃ v : Zod,
      shapeGet fields p.name = some v ∧
      p.required = !(isOptional v) ∧
      (v = .zoptional .zstring → p.required = false) ∧
      (∀ d, v = .zdefault d (.zoptional .zstring) → p.required = false) := by
  intro p hp
  obtain ⟨pf, rf, hx⟩ := getParameterObjects_ok_extract hok
  obtain ⟨hrf, entries, ht, hpf⟩ := extractPathSchema_ok_inv hx
  have hsh := getParameterObjects_ok_shape hx hok
  have hndrf : (keysOf rf).Nodup := keysOf_rf_nodup hnd hrf
  have hndpf : (keysOf pf).Nodup := by
    rw [hpf]; exact keysOf_jsFromEntries_nodup entries
  have hXe : jsFromEntries (rf.map queryParamEntryOf) = rf.map queryParamEntryOf :=
    jsFromEntries_eq_self (by rw [keysOf_map_queryParamEntryOf]; exact hndrf)
  have hYe : jsFromEntries (pf.map pathParamEntryOf) = pf.map pathParamEntryOf :=
    jsFromEntries_eq_self (by rw [keysOf_map_pathParamEntryOf]; exact hndpf)
  rw [hsh, hXe, hYe] at hp
  rcases List.mem_map.mp hp with ⟨kv, hkv, hkvp⟩
  rcases mem_jsSpread_cases hkv with ⟨hin, _⟩ | ⟨hin, _⟩
  · rcases List.mem_map.mp hin with ⟨fv, hfv, hfkv⟩
    have hfe : fv ∈ entries := mem_jsFromEntries (hpf ▸ hfv)
    rcases traverseExcept_ok_mem ht fv hfe with ⟨key, hkey, hseg⟩
    have hseg2 : segmentEntry fields key = .ok (fv.1, fv.2) := by rw [hseg]
    obtain ⟨hk1, hk2⟩ := segmentEntry_ok_inv hseg2
    refine ⟨fv.2, ?_, ?_, ?_, ?_⟩
    · rw [← hkvp, ← hfkv]
      show shapeGet fields fv.1 = some fv.2
      rw [hk1]
      exact hk2
    · rw [← hkvp, ← hfkv]; rfl
    · intro hv
      rw [← hkvp, ← hfkv]
      show (!(isOptional fv.2)) = false
      rw [hv]; rfl
    · intro d hv
      rw [← hkvp, ← hfkv]
      show (!(isOptional fv.2)) = false
      rw [hv]; rfl
  · rcases List.mem_map.mp hin with ⟨fv, hfv, hfkv⟩
    have hmem : fv ∈ fields := by
      have hmf : fv ∈ fields.filter
          (fun kv => !(maskTruthy zodInstanceOwnKeys kv.1)) := hrf ▸ hfv
      exact List.mem_of_mem_filter hmf
    have hown : jsGetOwn fields fv.1 = some fv.2 :=
      jsGetOwn_eq_some_of_mem hnd hmem
    refine ⟨fv.2, ?_, ?_, ?_, ?_⟩
    · rw [← hkvp, ← hfkv]
      show shapeGet fields fv.1 = some fv.2
      unfold shapeGet
      rw [hown]
    · rw [← hkvp, ← hfkv]; rfl
    · intro hv
      rw [← hkvp, ← hfkv]
      show (!(isOptional fv.2)) = false
      rw [hv]; rfl
    · intro d hv
      rw [← hkvp, ← hfkv]
      show (!(isOptional fv.2)) = false
      rw [hv]; rfl

/-- C4 witness: at schema `{id: optional string, d: default "x"
(optional string)}` and template `/{id}`, the emitted path parameter for
`id` carries `required = false`, computed from the wrapped field node. -/
theorem c4_required_witness :
    ∃ v : Zod,
      shapeGet [("id", Zod.zoptional Zod.zstring),
                ("d", Zod.zdefault "x" (Zod.zoptional Zod.zstring))]
          ({ name := "id", location := .path, required := false,
             schema := ⟨Zod.zoptional Zod.zstring⟩, style := "simple",
             explode := true } : ParameterObject).name = some v ∧
      ({ name := "id", location := .path, required := false,
         schema := ⟨Zod.zoptional Zod.zstring⟩, style := "simple",
         explode := true } : ParameterObject).required = !(isOptional v) ∧
      (v = .zoptional .zstring →
        ({ name := "id", location := .path, required := false,
           schema := ⟨Zod.zoptional Zod.zstring⟩, style := "simple",
           explode := true } : ParameterObject).required = false) ∧
      (∀ d, v = .zdefault d (.zoptional .zstring) →
        ({ name := "id", location := .path, required := false,
           schema := ⟨Zod.zoptional Zod.zstring⟩, style := "simple",
           explode := true } : ParameterObject).required = false) :=
  c4_required_from_wrapped_node
    [("id", Zod.zoptional Zod.zstring),
     ("d", Zod.zdefault "x" (Zod.zoptional Zod.zstring))]
    "/{id}"
    [{ name := "id", location := .path, required := false,
       schema := ⟨Zod.zoptional Zod.zstring⟩, style := "simple",
       explode := true },
     { name := "d", location := .query, required := false,
       schema := ⟨Zod.zdefault "x" (Zod.zoptional Zod.zstring)⟩, style := "form",
       explode := true }]
    (by decide) rfl
    { name := "id", location := .path, required := false,
      schema := ⟨Zod.zoptional Zod.zstring⟩, style := "simple",
      explode := true }
    (List.mem_cons_self _ _)

end Trpc
